import Mathlib

/-!
Shallow embedding of `chrolispp_planner.py` (the ProtocolStep codec and the
encode/decode paths of `CSVApp`), together with proofs checking the
natural-language specification against it.

Modelling conventions:
* Python `int` is modelled as `ℤ`; Python `float` values are modelled as exact
  rationals `ℚ` (the spec itself describes the arithmetic exactly).
* Python `%` and `//` on integers (floor semantics for positive divisors) are
  `Int.emod` and `Int.ediv`, which agree with Python for positive divisors.
* Python `int(x)` applied to a float truncates toward zero: `pytrunc`.
* Exceptions are modelled with `Except PErr`; the distinct Python exception
  classes (`InvalidParameterError`, `InvalidLineError`, `ValueError`,
  `ZeroDivisionError`) map to the constructors of `PErr`.  The human-readable
  messages attached to the Python exceptions are not modelled; no code path
  branches on them.
* CSV lines are lists of characters; `pySplit` models `str.split(",")`,
  `pyStrip` models `str.strip()`, `pyParseInt` models `int(str)` restricted to
  an optional sign followed by decimal digits (Python additionally accepts
  underscore digit separators, which never occur on any line produced by the
  program).
-/

/-- The exception kinds raised by the Python program. -/
inductive PErr : Type
  | invalidParameter : PErr
  | invalidLine : PErr
  | valueError : PErr
  | zeroDivision : PErr
deriving DecidableEq, Repr

/-- Python `int(x)` on a real value: truncation toward zero. -/
def pytrunc (q : ℚ) : ℤ :=
  if 0 ≤ q then ⌊q⌋ else ⌈q⌉

/-- Decimal digit characters `'0'..'9'`. -/
def charIsDigit (c : Char) : Bool :=
  decide (48 ≤ c.toNat ∧ c.toNat ≤ 57)

/-- The whitespace characters stripped by Python `str.strip()` (the common ones;
no line handled by the program contains the more exotic ones). -/
def isWs (c : Char) : Bool :=
  c = ' ' || c = '\t' || c = '\n' || c = '\r'

/-- Python `str.strip()`: drop whitespace from both ends. -/
def pyStrip (s : List Char) : List Char :=
  ((s.dropWhile isWs).reverse.dropWhile isWs).reverse

/-- Python `str.split(",")`: split on every comma, keeping empty pieces. -/
def pySplit : List Char → List (List Char)
  | [] => [[]]
  | c :: rest =>
    if c = ',' then [] :: pySplit rest
    else
      match pySplit rest with
      | [] => [[c]]
      | t :: ts => (c :: t) :: ts

/-- Join chunks with comma separators (the shape of the f-string in
`to_csv_line`). -/
def joinComma : List (List Char) → List Char
  | [] => []
  | [x] => x
  | x :: xs => x ++ ',' :: joinComma xs

/-- Digits of a natural number, most significant first, via fuel recursion. -/
def renderNatAux : ℕ → ℕ → List Char → List Char
  | 0, _, acc => acc
  | fuel + 1, n, acc =>
    if n / 10 = 0 then Nat.digitChar (n % 10) :: acc
    else renderNatAux fuel (n / 10) (Nat.digitChar (n % 10) :: acc)

/-- Decimal rendering of a natural number, as Python `str` produces it. -/
def renderNat (n : ℕ) : List Char :=
  renderNatAux (n + 1) n []

/-- Decimal rendering of an integer, as Python `str` produces it. -/
def renderInt (z : ℤ) : List Char :=
  if z < 0 then '-' :: renderNat z.natAbs else renderNat z.natAbs

/-- Value of a digit string, most significant digit first. -/
def valNat (s : List Char) : ℕ :=
  s.foldl (fun a c => 10 * a + (c.toNat - 48)) 0

/-- Parse a nonempty all-digit string. -/
def parseNat (s : List Char) : Option ℕ :=
  if s ≠ [] ∧ s.all charIsDigit = true then some (valNat s) else none

/-- Python `int(str)`: strip whitespace, optional sign, decimal digits. -/
def pyParseInt (s : List Char) : Option ℤ :=
  match pyStrip s with
  | [] => none
  | c :: rest =>
    if c = '-' then (parseNat rest).map (fun n => -(n : ℤ))
    else if c = '+' then (parseNat rest).map (fun n => (n : ℤ))
    else (parseNat (c :: rest)).map (fun n => (n : ℤ))

section CharLemmas

theorem digitChar_toNat {d : ℕ} (hd : d < 10) : (Nat.digitChar d).toNat = 48 + d := by
  interval_cases d <;> rfl

theorem charIsDigit_digitChar {d : ℕ} (hd : d < 10) : charIsDigit (Nat.digitChar d) = true := by
  interval_cases d <;> rfl

theorem not_ws_of_digit {c : Char} (h : charIsDigit c = true) : isWs c = false := by
  simp only [charIsDigit, decide_eq_true_eq] at h
  have hne : c ≠ ' ' ∧ c ≠ '\t' ∧ c ≠ '\n' ∧ c ≠ '\r' := by
    refine ⟨?_, ?_, ?_, ?_⟩ <;> intro hc <;> subst hc <;> exact absurd h (by decide)
  simp [isWs, hne.1, hne.2.1, hne.2.2.1, hne.2.2.2]

theorem ne_comma_of_digit {c : Char} (h : charIsDigit c = true) : c ≠ ',' := by
  intro hc
  subst hc
  simp only [charIsDigit, decide_eq_true_eq] at h
  exact absurd h (by decide)

end CharLemmas

section RenderLemmas

theorem renderNatAux_acc (fuel : ℕ) :
    ∀ n acc, renderNatAux fuel n acc = renderNatAux fuel n [] ++ acc := by
  induction fuel with
  | zero => intro n acc; rfl
  | succ f ih =>
    intro n acc
    by_cases h : n / 10 = 0
    · simp [renderNatAux, h]
    · simp only [renderNatAux, h, if_false]
      rw [ih (n / 10) (Nat.digitChar (n % 10) :: acc),
        ih (n / 10) [Nat.digitChar (n % 10)], List.append_assoc]
      rfl

theorem renderNatAux_fuel :
    ∀ f₁ f₂ n acc, n < f₁ → n < f₂ → renderNatAux f₁ n acc = renderNatAux f₂ n acc := by
  intro f₁
  induction f₁ with
  | zero => intro f₂ n acc h₁; omega
  | succ f ih =>
    intro f₂ n acc h₁ h₂
    match f₂, h₂ with
    | f' + 1, _ =>
      by_cases h : n / 10 = 0
      · simp [renderNatAux, h]
      · simp only [renderNatAux, h, if_false]
        have hn : 0 < n := by
          rcases Nat.eq_zero_or_pos n with h0 | h0
          · exfalso; exact h (by simp [h0])
          · exact h0
        have hlt : n / 10 < n := Nat.div_lt_self hn (by norm_num)
        exact ih f' (n / 10) _ (by omega) (by omega)

theorem renderNat_lt_ten {n : ℕ} (h : n < 10) : renderNat n = [Nat.digitChar n] := by
  have h10 : n / 10 = 0 := Nat.div_eq_of_lt h
  simp [renderNat, renderNatAux, h10, Nat.mod_eq_of_lt h]

theorem renderNat_ge_ten {n : ℕ} (h : 10 ≤ n) :
    renderNat n = renderNat (n / 10) ++ [Nat.digitChar (n % 10)] := by
  have h10 : n / 10 ≠ 0 := by omega
  have hlt : n / 10 < n := Nat.div_lt_self (by omega) (by norm_num)
  unfold renderNat
  rw [show renderNatAux (n + 1) n [] = renderNatAux n (n / 10) [Nat.digitChar (n % 10)] by
    simp [renderNatAux, h10]]
  rw [renderNatAux_acc, renderNatAux_fuel n (n / 10 + 1) (n / 10) [] (by omega) (by omega)]

theorem renderNat_all_digits (n : ℕ) : ∀ c ∈ renderNat n, charIsDigit c = true := by
  induction n using Nat.strong_induction_on with
  | _ n ih =>
    by_cases h : n < 10
    · rw [renderNat_lt_ten h]
      intro c hc
      simp only [List.mem_singleton] at hc
      subst hc
      exact charIsDigit_digitChar h
    · rw [renderNat_ge_ten (by omega)]
      intro c hc
      rcases List.mem_append.mp hc with hc | hc
      · exact ih (n / 10) (Nat.div_lt_self (by omega) (by norm_num)) c hc
      · simp only [List.mem_singleton] at hc
        subst hc
        exact charIsDigit_digitChar (Nat.mod_lt n (by norm_num))

theorem renderNat_ne_nil (n : ℕ) : renderNat n ≠ [] := by
  by_cases h : n < 10
  · rw [renderNat_lt_ten h]; simp
  · rw [renderNat_ge_ten (by omega)]; simp

theorem valNat_append_digit (s : List Char) (c : Char) :
    valNat (s ++ [c]) = 10 * valNat s + (c.toNat - 48) := by
  simp [valNat, List.foldl_append]

theorem valNat_renderNat (n : ℕ) : valNat (renderNat n) = n := by
  induction n using Nat.strong_induction_on with
  | _ n ih =>
    by_cases h : n < 10
    · rw [renderNat_lt_ten h]
      simp [valNat, digitChar_toNat h]
    · rw [renderNat_ge_ten (by omega), valNat_append_digit,
        ih (n / 10) (Nat.div_lt_self (by omega) (by norm_num)),
        digitChar_toNat (Nat.mod_lt n (by norm_num))]
      omega

theorem parseNat_renderNat (n : ℕ) : parseNat (renderNat n) = some n := by
  have hall : (renderNat n).all charIsDigit = true :=
    List.all_eq_true.mpr (renderNat_all_digits n)
  simp [parseNat, renderNat_ne_nil n, hall, valNat_renderNat n]

theorem renderInt_chars (z : ℤ) : ∀ c ∈ renderInt z, charIsDigit c = true ∨ c = '-' := by
  unfold renderInt
  by_cases hz : z < 0
  · rw [if_pos hz]
    intro c hc
    rcases List.mem_cons.mp hc with hc | hc
    · exact Or.inr hc
    · exact Or.inl (renderNat_all_digits _ c hc)
  · rw [if_neg hz]
    intro c hc
    exact Or.inl (renderNat_all_digits _ c hc)

theorem renderInt_no_ws (z : ℤ) : ∀ c ∈ renderInt z, isWs c = false := by
  intro c hc
  rcases renderInt_chars z c hc with h | h
  · exact not_ws_of_digit h
  · subst h; rfl

theorem renderInt_no_comma (z : ℤ) : ∀ c ∈ renderInt z, c ≠ ',' := by
  intro c hc
  rcases renderInt_chars z c hc with h | h
  · exact ne_comma_of_digit h
  · subst h; decide

end RenderLemmas

section StripSplitLemmas

theorem dropWhile_eq_self_of_none {p : Char → Bool} :
    ∀ s : List Char, (∀ c ∈ s, p c = false) → s.dropWhile p = s := by
  intro s h
  cases s with
  | nil => rfl
  | cons c t =>
    have hc : p c = false := h c (List.mem_cons_self c t)
    simp [List.dropWhile, hc]

theorem pyStrip_eq_self {s : List Char} (h : ∀ c ∈ s, isWs c = false) : pyStrip s = s := by
  unfold pyStrip
  rw [dropWhile_eq_self_of_none s h,
    dropWhile_eq_self_of_none s.reverse (fun c hc => h c (List.mem_reverse.mp hc)),
    List.reverse_reverse]

theorem pySplit_ne_nil : ∀ s : List Char, pySplit s ≠ [] := by
  intro s
  induction s with
  | nil => simp [pySplit]
  | cons c t ih =>
    by_cases hc : c = ','
    · simp [pySplit, hc]
    · simp only [pySplit, hc, if_false]
      cases h : pySplit t with
      | nil => exact absurd h ih
      | cons x xs => simp

theorem pySplit_cons_of_ne {c : Char} (hc : ¬c = ',') {s x : List Char}
    {xs : List (List Char)} (h : pySplit s = x :: xs) :
    pySplit (c :: s) = (c :: x) :: xs := by
  simp [pySplit, hc, h]

theorem pySplit_append : ∀ a b : List Char, pySplit (a ++ ',' :: b) = pySplit a ++ pySplit b := by
  intro a
  induction a with
  | nil => intro b; simp [pySplit]
  | cons c t ih =>
    intro b
    by_cases hc : c = ','
    · simp [pySplit, hc, ih b]
    · cases h : pySplit t with
      | nil => exact absurd h (pySplit_ne_nil t)
      | cons y ys =>
        have h1 : pySplit (t ++ ',' :: b) = y :: (ys ++ pySplit b) := by
          rw [ih b, h]
          rfl
        calc pySplit ((c :: t) ++ ',' :: b) = pySplit (c :: (t ++ ',' :: b)) := rfl
        _ = (c :: y) :: (ys ++ pySplit b) := pySplit_cons_of_ne hc h1
        _ = ((c :: y) :: ys) ++ pySplit b := rfl
        _ = pySplit (c :: t) ++ pySplit b := by rw [pySplit_cons_of_ne hc h]

theorem pySplit_no_comma : ∀ s : List Char, (∀ c ∈ s, c ≠ ',') → pySplit s = [s] := by
  intro s
  induction s with
  | nil => intro _; rfl
  | cons c t ih =>
    intro h
    have hc : c ≠ ',' := h c (List.mem_cons_self c t)
    simp only [pySplit, hc, if_false]
    rw [ih (fun x hx => h x (List.mem_cons_of_mem c hx))]

theorem joinComma_append_singleton :
    ∀ l : List (List Char), ∀ m : List Char, l ≠ [] →
      joinComma (l ++ [m]) = joinComma l ++ ',' :: m := by
  intro l
  induction l with
  | nil => intro m h; exact absurd rfl h
  | cons x xs ih =>
    intro m _
    cases xs with
    | nil => simp [joinComma]
    | cons y ys =>
      have h1 : joinComma ((x :: y :: ys) ++ [m]) = x ++ ',' :: joinComma ((y :: ys) ++ [m]) := rfl
      have h2 : joinComma (x :: y :: ys) = x ++ ',' :: joinComma (y :: ys) := rfl
      rw [h1, ih m (by simp), h2]
      simp

theorem pySplit_joinComma :
    ∀ l : List (List Char), l ≠ [] → (∀ x ∈ l, ∀ c ∈ x, c ≠ ',') →
      pySplit (joinComma l) = l := by
  intro l
  induction l with
  | nil => intro h; exact absurd rfl h
  | cons x xs ih =>
    intro _ h
    cases xs with
    | nil => exact pySplit_no_comma x (h x (List.mem_cons_self x []))
    | cons y ys =>
      have hx : ∀ c ∈ x, c ≠ ',' := h x (List.mem_cons_self x (y :: ys))
      show pySplit (x ++ ',' :: joinComma (y :: ys)) = x :: y :: ys
      rw [pySplit_append, pySplit_no_comma x hx,
        ih (by simp) (fun z hz => h z (List.mem_cons_of_mem x hz))]
      rfl

theorem joinComma_no_ws :
    ∀ l : List (List Char), (∀ x ∈ l, ∀ c ∈ x, isWs c = false) →
      ∀ c ∈ joinComma l, isWs c = false := by
  intro l
  induction l with
  | nil => intro _ c hc; simp [joinComma] at hc
  | cons x xs ih =>
    intro h c hc
    cases xs with
    | nil => exact h x (List.mem_cons_self x []) c hc
    | cons y ys =>
      rcases List.mem_append.mp hc with hc | hc
      · exact h x (List.mem_cons_self x (y :: ys)) c hc
      · rcases List.mem_cons.mp hc with hc | hc
        · subst hc; rfl
        · exact ih (fun z hz => h z (List.mem_cons_of_mem x hz)) c hc

end StripSplitLemmas

section ParseRoundTrip

theorem digit_ne_minus {c : Char} (h : charIsDigit c = true) : c ≠ '-' := by
  intro hc
  subst hc
  simp only [charIsDigit, decide_eq_true_eq] at h
  exact absurd h (by decide)

theorem digit_ne_plus {c : Char} (h : charIsDigit c = true) : c ≠ '+' := by
  intro hc
  subst hc
  simp only [charIsDigit, decide_eq_true_eq] at h
  exact absurd h (by decide)

theorem pyParseInt_renderInt (z : ℤ) : pyParseInt (renderInt z) = some z := by
  have hstrip : pyStrip (renderInt z) = renderInt z := pyStrip_eq_self (renderInt_no_ws z)
  by_cases hz : z < 0
  · have hr : renderInt z = '-' :: renderNat z.natAbs := by simp [renderInt, hz]
    have h1 : pyParseInt (renderInt z) = some (-(z.natAbs : ℤ)) := by
      unfold pyParseInt
      rw [hstrip, hr]
      simp [parseNat_renderNat]
    rw [h1]
    congr 1
    omega
  · have hr : renderInt z = renderNat z.natAbs := by simp [renderInt, hz]
    obtain ⟨c, t, hct⟩ : ∃ c t, renderNat z.natAbs = c :: t := by
      cases h : renderNat z.natAbs with
      | nil => exact absurd h (renderNat_ne_nil _)
      | cons c t => exact ⟨c, t, rfl⟩
    have hdig : charIsDigit c = true := by
      apply renderNat_all_digits z.natAbs
      rw [hct]
      exact List.mem_cons_self c t
    have h1 : pyParseInt (renderInt z) = some ((z.natAbs : ℤ)) := by
      unfold pyParseInt
      rw [hstrip, hr, hct]
      simp [digit_ne_minus hdig, digit_ne_plus hdig, ← hct, parseNat_renderNat]
    rw [h1]
    congr 1
    omega

end ParseRoundTrip

/-- The `ProtocolStep` record.  `us_mode` is the derived flag stored by
`__init__` (lines 93-99 of the source); `to_csv_line` recomputes it and never
reads the stored field, exactly as in the source. -/
structure ProtocolStep : Type where
  led_index : ℤ
  pulse_duration_us : ℤ
  time_between_pulses_us : ℤ
  n_pulses : ℤ
  brightness_value : ℤ
  us_mode : ℤ
deriving DecidableEq, Repr

/-- Model of `ProtocolStep.__init__`: the validations `_is_valid_led_index`,
`_is_valid_pulse_duration`, `_is_valid_time_between_pulses`,
`_is_valid_n_pulses`, `_is_valid_brightness_value` in source order, then the
break correction of `n_pulses` and the derived `us_mode`.  The `Bool` in the
result records whether `warnings.warn` was called (the observable soft
correction).  The `_is_int` checks are enforced by the type `ℤ`. -/
def ProtocolStep.make (led_index pulse_duration_us time_between_pulses_us
    n_pulses brightness_value : ℤ) : Except PErr (ProtocolStep × Bool) :=
  if ¬(0 ≤ led_index ∧ led_index ≤ 5) then .error .invalidParameter
  else if ¬(Int.emod pulse_duration_us 5 = 0) then .error .invalidParameter
  else if ¬(Int.emod time_between_pulses_us 5 = 0) then .error .invalidParameter
  else if ¬(0 < n_pulses) then .error .invalidParameter
  else if ¬(0 ≤ brightness_value ∧ brightness_value ≤ 1000) then .error .invalidParameter
  else
    let n := if 0 < brightness_value then n_pulses else 1
    let us : ℤ :=
      if Int.emod pulse_duration_us 1000 = 0 ∧ Int.emod time_between_pulses_us 1000 = 0
      then 0 else 1
    .ok (⟨led_index, pulse_duration_us, time_between_pulses_us, n, brightness_value, us⟩,
      decide (n ≠ n_pulses))

/-- Model of `ProtocolStep.to_csv_line`: recompute `us_mode` from the stored microsecond
values, divide the two durations by 1000 when it is 0, and join the six fields
with commas. -/
def ProtocolStep.to_csv_line (s : ProtocolStep) : List Char :=
  let us_mode : ℤ :=
    if ¬(Int.emod s.pulse_duration_us 1000 = 0) ∨ ¬(Int.emod s.time_between_pulses_us 1000 = 0)
    then 1 else 0
  let pulse_duration :=
    if us_mode = 1 then s.pulse_duration_us else Int.ediv s.pulse_duration_us 1000
  let time_between_pulses :=
    if us_mode = 1 then s.time_between_pulses_us else Int.ediv s.time_between_pulses_us 1000
  joinComma [renderInt s.led_index, renderInt pulse_duration, renderInt time_between_pulses,
    renderInt s.n_pulses, renderInt s.brightness_value, renderInt us_mode]

/-- Model of `int(entries[i])` on one CSV field: a failed parse is Python's
`ValueError`. -/
def toIntField (e : List Char) : Except PErr ℤ :=
  match pyParseInt e with
  | some z => .ok z
  | none => .error .valueError

/-- The body of `ProtocolStep.from_csv_line` after splitting: parse the five
mandatory fields, default `us_mode` to 0 for a 5-field line, scale the two
durations by 1000 when `us_mode == 0`, and construct (re-running all
validation).  The warning flag of `make` is Python's global warning channel and
is not part of the return value. -/
def ProtocolStep.from_entries (e0 e1 e2 e3 e4 : List Char) (e5 : Option (List Char)) :
    Except PErr ProtocolStep :=
  match toIntField e0 with
  | .error err => .error err
  | .ok led_index =>
  match toIntField e1 with
  | .error err => .error err
  | .ok pulse_duration =>
  match toIntField e2 with
  | .error err => .error err
  | .ok time_between_pulses =>
  match toIntField e3 with
  | .error err => .error err
  | .ok n_pulses =>
  match toIntField e4 with
  | .error err => .error err
  | .ok brightness_value =>
  match (match e5 with | none => Except.ok 0 | some e => toIntField e) with
  | .error err => .error err
  | .ok us_mode =>
    let pulse_duration := if us_mode = 0 then pulse_duration * 1000 else pulse_duration
    let time_between_pulses :=
      if us_mode = 0 then time_between_pulses * 1000 else time_between_pulses
    (ProtocolStep.make led_index pulse_duration time_between_pulses n_pulses
      brightness_value).map Prod.fst

/-- Model of `ProtocolStep.from_csv_line`: strip the line, split on commas, accept
exactly 5 or 6 fields, else `InvalidLineError`. -/
def ProtocolStep.from_csv_line (csv_line : List Char) : Except PErr ProtocolStep :=
  match pySplit (pyStrip csv_line) with
  | [e0, e1, e2, e3, e4] => ProtocolStep.from_entries e0 e1 e2 e3 e4 none
  | [e0, e1, e2, e3, e4, e5] => ProtocolStep.from_entries e0 e1 e2 e3 e4 (some e5)
  | _ => .error .invalidLine

/-- Model of `ProtocolStep.get_frequency`: `1_000_000.0 / cycle_duration_us`; Python
raises `ZeroDivisionError` on a zero cycle. -/
def ProtocolStep.get_frequency (s : ProtocolStep) : Except PErr ℚ :=
  let cycle_duration_us := s.pulse_duration_us + s.time_between_pulses_us
  if cycle_duration_us = 0 then .error .zeroDivision
  else .ok (1000000 / (cycle_duration_us : ℚ))

/-- Model of `ProtocolStep.get_total_duration`: `n_pulses * cycle_duration_us / 1e6`
seconds. -/
def ProtocolStep.get_total_duration (s : ProtocolStep) : ℚ :=
  let cycle_duration_us := s.pulse_duration_us + s.time_between_pulses_us
  ((s.n_pulses * cycle_duration_us : ℤ) : ℚ) / 1000000

/-- Trailing zeros of a digit string. -/
def trimZeros (l : List Char) : List Char :=
  (l.reverse.dropWhile (fun c => c = '0')).reverse

/-- Pad a digit string on the left with zeros to length `k`. -/
def padLeftZeros (k : ℕ) (l : List Char) : List Char :=
  List.replicate (k - l.length) '0' ++ l

/-- Python `str(t / 1_000_000.)` for an integer `t`, modelling the float
rendering as the exact positional decimal of `t / 10^6` (integer part, point,
fractional digits with trailing zeros removed, at least one digit kept). -/
def pyFloatStr6 (t : ℤ) : List Char :=
  let a := t.natAbs
  let fr := trimZeros (padLeftZeros 6 (renderNat (a % 1000000)))
  (if t < 0 then ['-'] else []) ++ renderNat (a / 1000000) ++
    '.' :: (if fr = [] then ['0'] else fr)

/-- Python `str(b / 10.0)`, modelling the float rendering as the exact decimal
with one fractional digit. -/
def pyFloatStr1 (b : ℤ) : List Char :=
  let a := b.natAbs
  (if b < 0 then ['-'] else []) ++ renderNat (a / 10) ++ '.' :: [Nat.digitChar (a % 10)]

/-- Python `"{q:.1f}"`, modelling the float rounding as exact half-up rounding
of the rational value to one decimal place. -/
def fmtFixed1 (q : ℚ) : List Char :=
  let m := ⌊q * 10 + 1 / 2⌋
  (if m < 0 then ['-'] else []) ++ renderNat (m.natAbs / 10) ++
    '.' :: [Nat.digitChar (m.natAbs % 10)]

/-- Model of `ProtocolStep.__str__`: breaks render as `Break duration: ... s`; other
steps call `get_frequency` (which can raise `ZeroDivisionError`) and
`get_total_duration` and render the full description. -/
def ProtocolStep.str (s : ProtocolStep) : Except PErr (List Char) :=
  if s.brightness_value = 0 then
    .ok ("Break duration: ".data ++ pyFloatStr6 s.time_between_pulses_us ++ " s".data)
  else
    match s.get_frequency with
    | .error err => .error err
    | .ok freq =>
    let total_duration := s.get_total_duration
    .ok ("LED ".data ++ renderInt (s.led_index + 1) ++ ", frequency: ".data ++
      fmtFixed1 freq ++ " Hz, total duration: ".data ++ fmtFixed1 total_duration ++
      " s, pulse duration: ".data ++ renderInt s.pulse_duration_us ++
      " us, inter-pulse break duration: ".data ++ renderInt s.time_between_pulses_us ++
      " us, number of pulses: ".data ++ renderInt s.n_pulses ++ ", power: ".data ++
      pyFloatStr1 s.brightness_value ++ " %".data)

/-- Model of `CSVApp.convert_to_us`: unrecognized unit tags raise `ValueError`. -/
def convert_to_us (value : ℚ) (unit : String) : Except PErr ℚ :=
  if unit = "us" then .ok value
  else if unit = "ms" then .ok (value * 1000)
  else if unit = "s" then .ok (value * 1000000)
  else .error .valueError

/-- Model of `CSVApp.convert_to_hz`. -/
def convert_to_hz (value : ℚ) (unit : String) : Except PErr ℚ :=
  if unit = "mHz" then .ok (value / 1000)
  else if unit = "Hz" then .ok value
  else .error .valueError

/-- Model of `int(self.convert_to_us(value, unit))` as used by `get_line` (lines
335-336): the normalized integer microsecond value entering the codec. -/
def normalized_us (value : ℚ) (unit : String) : Except PErr ℤ :=
  (convert_to_us value unit).map pytrunc

/-- Model of `cycle_duration_us = int(1_000_000.0 / freq_hz)` in `get_line`. -/
def cycle_duration_us (freq_hz : ℚ) : ℤ :=
  pytrunc (1000000 / freq_hz)

/-- Model of `time_between_pulses_us` as derived in the frequency branch of `get_line`:
`cycle - pulse`, then `t -= t % 5`. -/
def time_between_from_freq (freq_hz : ℚ) (pulse_duration_us : ℤ) : ℤ :=
  let t := cycle_duration_us freq_hz - pulse_duration_us
  t - Int.emod t 5

/-- Model of `n_pulses = floor(total_duration_us / cycle_duration_us)` in `get_line`
(float division modelled exactly). -/
def n_pulses_from_freq (freq_hz : ℚ) (total_duration_us : ℤ) : ℤ :=
  ⌊(total_duration_us : ℚ) / ((cycle_duration_us freq_hz : ℤ) : ℚ)⌋

/-- Model of `CSVApp.get_line` from line 343 on: inputs are the already-normalized
0-based LED index, the optional frequency in Hz, the total and pulse durations
in integer microseconds, and the power.  Python float division by zero is
`ZeroDivisionError`: once when `freq_hz == 0` at the cycle computation, and
once when the derived cycle is 0 at the `n_pulses` computation. -/
def get_line (led_index : ℤ) (freq_hz : Option ℚ)
    (total_duration_us pulse_duration_us power : ℤ) : Except PErr (List Char) :=
  match freq_hz with
  | some f =>
    if f = 0 then .error .zeroDivision
    else
      let t := time_between_from_freq f pulse_duration_us
      if t < 0 then .error .invalidParameter
      else if cycle_duration_us f = 0 then .error .zeroDivision
      else
        let n := n_pulses_from_freq f total_duration_us
        if n ≤ 0 then .error .invalidParameter
        else (ProtocolStep.make led_index pulse_duration_us t n power).map
          (fun pr => pr.1.to_csv_line)
  | none =>
    if power = 0 then
      (ProtocolStep.make led_index 0 total_duration_us 1 power).map
        (fun pr => pr.1.to_csv_line)
    else
      let t := total_duration_us - pulse_duration_us
      if t < 0 then .error .invalidParameter
      else (ProtocolStep.make led_index pulse_duration_us t 1 power).map
        (fun pr => pr.1.to_csv_line)

/-- Model of `CSVApp.decode_line`: parse a CSV line and render the step. -/
def decode_line (line : List Char) : Except PErr (List Char) :=
  (ProtocolStep.from_csv_line line).bind ProtocolStep.str

/-- Claim C9: with a supplied frequency equal to 0, `get_line` takes the
frequency-present branch and the cycle-duration computation divides by zero,
raising `ZeroDivisionError` rather than the typed invalid-parameter error. -/
theorem encode_zero_frequency_zero_division (led T p b : ℤ) :
    get_line led (some 0) T p b = .error .zeroDivision ∧
    PErr.zeroDivision ≠ PErr.invalidParameter := by
  constructor
  · simp [get_line]
  · decide

/-- Claim C3, counterexample: constructing a `ProtocolStep` with brightness 0
and supplied `n_pulses = 0` is a hard invalid-parameter failure, not a
warning-level correction: `_is_valid_n_pulses` runs before the break
correction. -/
theorem break_n_pulses_hard_failure_cex :
    ProtocolStep.make 0 0 0 0 0 = .error .invalidParameter := by
  rfl

/-- Claim C3, amended: for brightness 0, supplied `n_pulses ≤ 0` fails with
invalid-parameter (validation precedes the correction); supplied
`n_pulses > 0` is forced to 1, with the warning raised exactly when the
supplied value differs from 1. -/
theorem break_n_pulses_soft_correction (led p t n : ℤ)
    (hled : 0 ≤ led ∧ led ≤ 5) (hp : Int.emod p 5 = 0) (ht : Int.emod t 5 = 0) :
    (n ≤ 0 → ProtocolStep.make led p t n 0 = .error .invalidParameter) ∧
    (0 < n → ProtocolStep.make led p t n 0 =
      .ok (⟨led, p, t, 1, 0,
            if Int.emod p 1000 = 0 ∧ Int.emod t 1000 = 0 then 0 else 1⟩,
        decide (1 ≠ n))) := by
  constructor
  · intro hn
    simp [ProtocolStep.make, hled.1, hled.2, hp, ht]
    omega
  · intro hn
    simp [ProtocolStep.make, hled.1, hled.2, hp, ht, hn]

/-- Witness for `break_n_pulses_soft_correction`: a break with supplied
`n_pulses = 5` constructs with `n_pulses` forced to 1 and the warning
raised. -/
theorem break_n_pulses_soft_correction_witness :
    ProtocolStep.make 0 0 0 5 0 = .ok (⟨0, 0, 0, 1, 0, 0⟩, true) := by
  have h := (break_n_pulses_soft_correction 0 0 0 5 (by decide) rfl rfl).2 (by decide)
  simpa using h

/-- Claim C5: `ProtocolStep` construction fails with the typed
invalid-parameter error exactly when a field violates its domain constraint,
and succeeds otherwise; in particular pulse 1234, brightness 1001, brightness
-1, led 6 and led -1 each fail, and a fully valid tuple succeeds. -/
theorem make_validation_iff :
    (∀ led p t n b : ℤ, ProtocolStep.make led p t n b =
      if (0 ≤ led ∧ led ≤ 5) ∧ Int.emod p 5 = 0 ∧ Int.emod t 5 = 0 ∧ 0 < n ∧
          (0 ≤ b ∧ b ≤ 1000)
      then .ok (⟨led, p, t, if 0 < b then n else 1, b,
            if Int.emod p 1000 = 0 ∧ Int.emod t 1000 = 0 then 0 else 1⟩,
          decide ((if 0 < b then n else 1) ≠ n))
      else .error .invalidParameter) ∧
    ProtocolStep.make 0 1234 0 1 500 = .error .invalidParameter ∧
    ProtocolStep.make 0 0 0 1 1001 = .error .invalidParameter ∧
    ProtocolStep.make 0 0 0 1 (-1) = .error .invalidParameter ∧
    ProtocolStep.make 6 0 0 1 500 = .error .invalidParameter ∧
    ProtocolStep.make (-1) 0 0 1 500 = .error .invalidParameter ∧
    ProtocolStep.make 0 1000 2000 3 500 = .ok (⟨0, 1000, 2000, 3, 500, 0⟩, false) := by
  refine ⟨?_, rfl, rfl, rfl, rfl, rfl, rfl⟩
  intro led p t n b
  unfold ProtocolStep.make
  split_ifs <;> simp_all

/-- Claim C7: a step with pulse 5000 µs and gap 3000 µs serializes in
millisecond mode as fields 5 and 3 with trailing 0; a step with pulse 1234 µs
serializes in microsecond mode with raw values and trailing 1, whatever the
other fields. -/
theorem to_csv_line_us_mode_examples :
    (∀ led n b um : ℤ, ProtocolStep.to_csv_line ⟨led, 5000, 3000, n, b, um⟩ =
      joinComma [renderInt led, ['5'], ['3'], renderInt n, renderInt b, ['0']]) ∧
    (∀ led t n b um : ℤ, ProtocolStep.to_csv_line ⟨led, 1234, t, n, b, um⟩ =
      joinComma [renderInt led, renderInt 1234, renderInt t, renderInt n, renderInt b,
        ['1']]) := by
  constructor
  · intro led n b um
    show joinComma [renderInt led, renderInt (Int.ediv 5000 1000),
      renderInt (Int.ediv 3000 1000), renderInt n, renderInt b, renderInt 0] = _
    rfl
  · intro led t n b um
    show joinComma [renderInt led, renderInt 1234, renderInt t, renderInt n, renderInt b,
      renderInt 1] = _
    rfl

theorem pySplit_render6 (a b c d e f : ℤ) :
    pySplit (joinComma [renderInt a, renderInt b, renderInt c, renderInt d, renderInt e,
      renderInt f]) =
    [renderInt a, renderInt b, renderInt c, renderInt d, renderInt e, renderInt f] := by
  apply pySplit_joinComma _ (by simp)
  intro x hx
  simp only [List.mem_cons, List.not_mem_nil, or_false] at hx
  rcases hx with rfl | rfl | rfl | rfl | rfl | rfl <;> exact renderInt_no_comma _

theorem pyStrip_render6 (a b c d e f : ℤ) :
    pyStrip (joinComma [renderInt a, renderInt b, renderInt c, renderInt d, renderInt e,
      renderInt f]) =
    joinComma [renderInt a, renderInt b, renderInt c, renderInt d, renderInt e,
      renderInt f] := by
  apply pyStrip_eq_self
  apply joinComma_no_ws
  intro x hx
  simp only [List.mem_cons, List.not_mem_nil, or_false] at hx
  rcases hx with rfl | rfl | rfl | rfl | rfl | rfl <;> exact renderInt_no_ws _

/-- Claim C4: `to_csv_line` emits `us_mode = 1` exactly when one of the two
stored durations is not a multiple of 1000, divides both by 1000 when it emits
0 and emits them raw otherwise, and recomputes the flag from the stored
microsecond fields — the stored `us_mode` field (in particular one parsed from
an input line) is never echoed: decoding `0,5000,3000,10,500,1` and
re-serializing emits trailing 0. -/
theorem to_csv_line_recomputes_us_mode :
    (∀ s : ProtocolStep,
      pySplit s.to_csv_line =
        [renderInt s.led_index,
         renderInt (if Int.emod s.pulse_duration_us 1000 ≠ 0 ∨
             Int.emod s.time_between_pulses_us 1000 ≠ 0
           then s.pulse_duration_us else Int.ediv s.pulse_duration_us 1000),
         renderInt (if Int.emod s.pulse_duration_us 1000 ≠ 0 ∨
             Int.emod s.time_between_pulses_us 1000 ≠ 0
           then s.time_between_pulses_us else Int.ediv s.time_between_pulses_us 1000),
         renderInt s.n_pulses, renderInt s.brightness_value,
         renderInt (if Int.emod s.pulse_duration_us 1000 ≠ 0 ∨
             Int.emod s.time_between_pulses_us 1000 ≠ 0 then 1 else 0)]) ∧
    ProtocolStep.from_csv_line ("0,5000,3000,10,500,1".data) =
      .ok ⟨0, 5000, 3000, 10, 500, 0⟩ ∧
    ProtocolStep.to_csv_line ⟨0, 5000, 3000, 10, 500, 0⟩ = "0,5,3,10,500,0".data := by
  refine ⟨?_, rfl, rfl⟩
  intro s
  unfold ProtocolStep.to_csv_line
  by_cases h : Int.emod s.pulse_duration_us 1000 = 0 ∧
      Int.emod s.time_between_pulses_us 1000 = 0
  · simp only [h.1, h.2, not_true_eq_false, or_self, if_false, ne_eq, or_false,
      if_neg (by simp : ¬((0 : ℤ) = 1))]
    exact pySplit_render6 _ _ _ _ _ _
  · have ho := not_and_or.mp h
    simp only [ne_eq, if_pos ho, if_pos rfl]
    have ho2 : Int.emod s.pulse_duration_us 1000 ≠ 0 ∨
        Int.emod s.time_between_pulses_us 1000 ≠ 0 := ho
    simp only [ho2, if_pos, if_true]
    exact pySplit_render6 _ _ _ _ _ _

/-- Claim C8, counterexample: for `v = -3/2` with unit `us` the normalized
value is `int(-1.5) = -1` (truncation toward zero), not
`floor(-1.5 * 1) = -2` as claimed. -/
theorem normalized_us_floor_cex :
    normalized_us ((-3 : ℚ) / 2) "us" ≠ Except.ok ⌊((-3 : ℚ) / 2) * 1⌋ := by
  have hv : pytrunc ((-3 : ℚ) / 2) = -1 := by
    unfold pytrunc
    rw [if_neg (by norm_num), show ((-3 : ℚ) / 2) = -(3 / 2) by ring, Int.ceil_neg]
    norm_num
  have h1 : normalized_us ((-3 : ℚ) / 2) "us" = .ok (-1) := by
    simp [normalized_us, convert_to_us, Except.map, hv]
  have h2 : (⌊((-3 : ℚ) / 2) * 1⌋ : ℤ) = -2 := by norm_num
  rw [h1, h2]
  intro hc
  exact absurd (Except.ok.inj hc) (by norm_num)

/-- Claim C8, amended: the normalized integer microsecond value is the
truncation toward zero of `v * factor(u)` (`us` ×1, `ms` ×1000, `s` ×1e6),
which agrees with floor exactly when the product is nonnegative; an
unrecognized unit tag fails with the invalid-unit (`ValueError`) condition. -/
theorem normalized_us_trunc (v : ℚ) :
    normalized_us v "us" = .ok (pytrunc (v * 1)) ∧
    normalized_us v "ms" = .ok (pytrunc (v * 1000)) ∧
    normalized_us v "s" = .ok (pytrunc (v * 1000000)) ∧
    (0 ≤ v → normalized_us v "us" = .ok ⌊v * 1⌋ ∧ normalized_us v "ms" = .ok ⌊v * 1000⌋ ∧
      normalized_us v "s" = .ok ⌊v * 1000000⌋) ∧
    (∀ u : String, u ≠ "us" → u ≠ "ms" → u ≠ "s" →
      normalized_us v u = .error .valueError) := by
  refine ⟨?_, ?_, ?_, ?_, ?_⟩
  · simp [normalized_us, convert_to_us, Except.map, mul_one]
  · simp [normalized_us, convert_to_us, Except.map]
  · simp [normalized_us, convert_to_us, Except.map]
  · intro hv
    have h1 : pytrunc v = ⌊v⌋ := by
      unfold pytrunc
      rw [if_pos hv]
    have h2 : pytrunc (v * 1000) = ⌊v * 1000⌋ := by
      unfold pytrunc
      rw [if_pos (mul_nonneg hv (by norm_num))]
    have h3 : pytrunc (v * 1000000) = ⌊v * 1000000⌋ := by
      unfold pytrunc
      rw [if_pos (mul_nonneg hv (by norm_num))]
    refine ⟨?_, ?_, ?_⟩ <;>
      simp [normalized_us, convert_to_us, Except.map, h1, h2, h3, mul_one]
  · intro u h1 h2 h3
    simp [normalized_us, convert_to_us, Except.map, h1, h2, h3]

/-- Witness for `normalized_us_trunc`: `v = 3/2` in `us` normalizes to
`floor(1.5) = 1`. -/
theorem normalized_us_trunc_witness : normalized_us ((3 : ℚ) / 2) "us" = .ok 1 := by
  have h := (normalized_us_trunc ((3 : ℚ) / 2)).2.2.2.1 (by norm_num)
  have h2 : (⌊((3 : ℚ) / 2) * 1⌋ : ℤ) = 1 := by norm_num
  rw [h2] at h
  exact h.1

/-- Claim C10: a step with positive brightness and zero pulse and gap passes
all constructor validation (e.g. parsed from `0,0,0,1,500,1`), but rendering
it calls `get_frequency`, which divides by the zero cycle duration and raises
`ZeroDivisionError`. -/
theorem str_zero_cycle_zero_division (led n b : ℤ)
    (hled : 0 ≤ led ∧ led ≤ 5) (hn : 0 < n) (hb : 0 < b) (hb2 : b ≤ 1000) :
    ProtocolStep.make led 0 0 n b = .ok (⟨led, 0, 0, n, b, 0⟩, false) ∧
    ProtocolStep.str ⟨led, 0, 0, n, b, 0⟩ = .error .zeroDivision ∧
    ProtocolStep.from_csv_line ("0,0,0,1,500,1".data) = .ok ⟨0, 0, 0, 1, 500, 0⟩ ∧
    decode_line ("0,0,0,1,500,1".data) = .error .zeroDivision := by
  refine ⟨?_, ?_, rfl, rfl⟩
  · simp [ProtocolStep.make, hled.1, hled.2, hn, hb, le_of_lt hb, hb2,
      show Int.emod (0 : ℤ) 5 = 0 from rfl, show Int.emod (0 : ℤ) 1000 = 0 from rfl]
  · simp [ProtocolStep.str, ProtocolStep.get_frequency, hb.ne']

/-- Witness for `str_zero_cycle_zero_division` at led 0, one pulse, power
500. -/
theorem str_zero_cycle_zero_division_witness :
    ProtocolStep.make 0 0 0 1 500 = .ok (⟨0, 0, 0, 1, 500, 0⟩, false) ∧
    ProtocolStep.str ⟨0, 0, 0, 1, 500, 0⟩ = .error .zeroDivision := by
  have h := str_zero_cycle_zero_division 0 1 500 (by decide) (by decide) (by decide)
    (by decide)
  exact ⟨h.1, h.2.1⟩

/-- A 5-field CSV line of integers: the five renderings joined by commas. -/
def mkLine5 (a b c d e : ℤ) : List Char :=
  joinComma [renderInt a, renderInt b, renderInt c, renderInt d, renderInt e]

theorem toIntField_renderInt (z : ℤ) : toIntField (renderInt z) = .ok z := by
  simp [toIntField, pyParseInt_renderInt]

theorem pySplit_render5 (a b c d e : ℤ) :
    pySplit (mkLine5 a b c d e) =
      [renderInt a, renderInt b, renderInt c, renderInt d, renderInt e] := by
  apply pySplit_joinComma _ (by simp)
  intro x hx
  simp only [List.mem_cons, List.not_mem_nil, or_false] at hx
  rcases hx with rfl | rfl | rfl | rfl | rfl <;> exact renderInt_no_comma _

theorem pyStrip_render5 (a b c d e : ℤ) :
    pyStrip (mkLine5 a b c d e) = mkLine5 a b c d e := by
  apply pyStrip_eq_self
  apply joinComma_no_ws
  intro x hx
  simp only [List.mem_cons, List.not_mem_nil, or_false] at hx
  rcases hx with rfl | rfl | rfl | rfl | rfl <;> exact renderInt_no_ws _

theorem pyStrip_render5_append (a b c d e : ℤ) :
    pyStrip (mkLine5 a b c d e ++ ",0".data) = mkLine5 a b c d e ++ ",0".data := by
  apply pyStrip_eq_self
  intro c hc
  rcases List.mem_append.mp hc with hc | hc
  · exact joinComma_no_ws _
      (by
        intro x hx
        simp only [List.mem_cons, List.not_mem_nil, or_false] at hx
        rcases hx with rfl | rfl | rfl | rfl | rfl <;> exact renderInt_no_ws _) c hc
  · rcases List.mem_cons.mp hc with rfl | hc
    · rfl
    · rcases List.mem_singleton.mp hc with rfl
      rfl

theorem pySplit_render5_append (a b c d e : ℤ) :
    pySplit (mkLine5 a b c d e ++ ",0".data) =
      [renderInt a, renderInt b, renderInt c, renderInt d, renderInt e, ['0']] := by
  rw [show (",0".data : List Char) = ',' :: ['0'] from rfl, pySplit_append,
    pySplit_render5]
  rfl

/-- Claim C6: a 5-field CSV line of integers decodes identically to the same
line with `,0` appended; `0,5,3,10,500` decodes identically to
`0,5,3,10,500,0`; any field count other than 5 or 6 fails with the
invalid-line error. -/
theorem legacy_five_field_equivalence :
    (∀ a b c d e : ℤ, ProtocolStep.from_csv_line (mkLine5 a b c d e) =
      ProtocolStep.from_csv_line (mkLine5 a b c d e ++ ",0".data)) ∧
    ProtocolStep.from_csv_line ("0,5,3,10,500".data) =
      ProtocolStep.from_csv_line ("0,5,3,10,500,0".data) ∧
    (∀ s : List Char, (pySplit (pyStrip s)).length ≠ 5 →
      (pySplit (pyStrip s)).length ≠ 6 →
      ProtocolStep.from_csv_line s = .error .invalidLine) := by
  refine ⟨?_, rfl, ?_⟩
  · intro a b c d e
    unfold ProtocolStep.from_csv_line
    rw [pyStrip_render5, pySplit_render5, pyStrip_render5_append, pySplit_render5_append]
    rfl
  · intro s h5 h6
    unfold ProtocolStep.from_csv_line
    generalize hl : pySplit (pyStrip s) = l at h5 h6 ⊢
    rcases l with _ | ⟨a0, _ | ⟨a1, _ | ⟨a2, _ | ⟨a3, _ | ⟨a4, _ | ⟨a5, _ | ⟨a6, rest⟩⟩⟩⟩⟩⟩⟩
    all_goals first
      | rfl
      | (exfalso; simp at h5 h6)

/-- Witness for `legacy_five_field_equivalence`: a 2-field line fails with the
invalid-line error. -/
theorem legacy_five_field_equivalence_witness :
    ProtocolStep.from_csv_line ("1,2".data) = .error .invalidLine :=
  legacy_five_field_equivalence.2.2 ("1,2".data) (by decide) (by decide)

theorem from_csv_line_render6 (a b c d e f : ℤ) :
    ProtocolStep.from_csv_line (joinComma [renderInt a, renderInt b, renderInt c,
      renderInt d, renderInt e, renderInt f]) =
    (ProtocolStep.make a (if f = 0 then b * 1000 else b) (if f = 0 then c * 1000 else c)
      d e).map Prod.fst := by
  unfold ProtocolStep.from_csv_line
  rw [pyStrip_render6, pySplit_render6]
  show ProtocolStep.from_entries (renderInt a) (renderInt b) (renderInt c) (renderInt d)
    (renderInt e) (some (renderInt f)) = _
  unfold ProtocolStep.from_entries
  simp [toIntField_renderInt]

/-- Claim C2: encoding a break (brightness 0, frequency absent) of total
duration `T` µs (nonnegative multiple of 5) yields a CSV line that decodes and
displays as exactly `Break duration: T/1e6 s` with the same `T`; in
particular total 1.5 s yields the CSV line `0,0,1500,1,0,0`. -/
theorem break_round_trip (led T p : ℤ) (hled : 0 ≤ led ∧ led ≤ 5)
    (hT0 : 0 ≤ T) (hT5 : Int.emod T 5 = 0) :
    (get_line led none T p 0).bind decode_line =
      .ok ("Break duration: ".data ++ pyFloatStr6 T ++ " s".data) ∧
    get_line 0 none 1500000 p 0 = .ok ("0,0,1500,1,0,0".data) := by
  refine ⟨?_, rfl⟩
  have hmk : ProtocolStep.make led 0 T 1 0 =
      .ok (⟨led, 0, T, 1, 0, if Int.emod T 1000 = 0 then 0 else 1⟩, false) := by
    simp [ProtocolStep.make, hled.1, hled.2, hT5,
      show Int.emod (0 : ℤ) 5 = 0 from rfl, show Int.emod (0 : ℤ) 1000 = 0 from rfl]
  have hget : get_line led none T p 0 =
      .ok (ProtocolStep.to_csv_line
        ⟨led, 0, T, 1, 0, if Int.emod T 1000 = 0 then 0 else 1⟩) := by
    simp [get_line, hmk, Except.map]
  by_cases hu : Int.emod T 1000 = 0
  · have hline : ProtocolStep.to_csv_line ⟨led, 0, T, 1, 0, 0⟩ =
        joinComma [renderInt led, renderInt 0, renderInt (Int.ediv T 1000),
          renderInt 1, renderInt 0, renderInt 0] := by
      simp [ProtocolStep.to_csv_line, hu, show Int.emod (0 : ℤ) 1000 = 0 from rfl,
        show Int.ediv (0 : ℤ) 1000 = 0 from rfl]
    have hdec : ProtocolStep.from_csv_line (joinComma [renderInt led, renderInt 0,
        renderInt (Int.ediv T 1000), renderInt 1, renderInt 0, renderInt 0]) =
        .ok ⟨led, 0, T, 1, 0, 0⟩ := by
      rw [from_csv_line_render6]
      have hTe : Int.ediv T 1000 * 1000 = T := by
        have hu2 : T % 1000 = 0 := hu
        show T / 1000 * 1000 = T
        omega
      simp [hTe, hmk, hu, Except.map]
    rw [hget, hu]
    simp only [if_pos rfl]
    show decode_line (ProtocolStep.to_csv_line ⟨led, 0, T, 1, 0, 0⟩) = _
    rw [decode_line, hline, hdec]
    simp [Except.bind, ProtocolStep.str]
  · have hline : ProtocolStep.to_csv_line ⟨led, 0, T, 1, 0, 1⟩ =
        joinComma [renderInt led, renderInt 0, renderInt T,
          renderInt 1, renderInt 0, renderInt 1] := by
      simp [ProtocolStep.to_csv_line, hu, show Int.emod (0 : ℤ) 1000 = 0 from rfl]
    have hdec : ProtocolStep.from_csv_line (joinComma [renderInt led, renderInt 0,
        renderInt T, renderInt 1, renderInt 0, renderInt 1]) =
        .ok ⟨led, 0, T, 1, 0, if Int.emod T 1000 = 0 then 0 else 1⟩ := by
      rw [from_csv_line_render6]
      simp [hmk, Except.map]
    rw [hget, if_neg hu]
    show decode_line (ProtocolStep.to_csv_line ⟨led, 0, T, 1, 0, 1⟩) = _
    rw [decode_line, hline, hdec]
    simp [Except.bind, ProtocolStep.str]

/-- Witness for `break_round_trip` at led 0, total 1,500,000 µs: the full
encode-decode-display pipeline yields `Break duration: 1.5 s`. -/
theorem break_round_trip_witness :
    (get_line 0 none 1500000 0 0).bind decode_line =
      .ok ("Break duration: ".data ++ pyFloatStr6 1500000 ++ " s".data) :=
  (break_round_trip 0 1500000 0 (by decide) (by decide) (by decide)).1

/-- Claim C1, counterexample: at frequency `-7` Hz (nonzero, as the claim
requires) the derived cycle duration is `int(1e6 / -7) = -142857` (truncation
toward zero), not `floor(1e6 / -7) = -142858`; the difference is observable:
the encode call with total `-1000000` µs and pulse `-142860` µs succeeds and
emits `n_pulses = 7`, while `floor(T / floor(1e6 / f)) = 6`. -/
theorem encode_frequency_floor_cex :
    cycle_duration_us (-7) ≠ ⌊(1000000 : ℚ) / (-7)⌋ ∧
    get_line 0 (some (-7)) (-1000000) (-142860) 500 =
      .ok ("0,-142860,0,7,500,1".data) ∧
    (7 : ℤ) ≠ ⌊(-1000000 : ℚ) / (-142858 : ℚ)⌋ := by
  have hc : cycle_duration_us (-7) = -142857 := by
    unfold cycle_duration_us pytrunc
    rw [if_neg (by norm_num),
      show ((1000000 : ℚ) / (-7)) = -(1000000 / 7) by ring, Int.ceil_neg]
    norm_num
  refine ⟨?_, ?_, ?_⟩
  · rw [hc]
    norm_num
  · have ht : time_between_from_freq (-7) (-142860) = 0 := by
      unfold time_between_from_freq
      rw [hc]
      rfl
    have hn : n_pulses_from_freq (-7) (-1000000) = 7 := by
      unfold n_pulses_from_freq
      rw [hc]
      norm_num
    have hf7 : ((-7 : ℚ)) ≠ 0 := by norm_num
    simp only [get_line, if_neg hf7, ht, hn, hc]
    norm_num
    rfl
  · norm_num

/-- Claim C1, amended: for every encode call with a present, positive
frequency `f ≤ 1,000,000` Hz (so the derived integer cycle is at least 1 µs —
for larger `f` the cycle is 0 and the `n_pulses` computation raises
`ZeroDivisionError`, and for negative `f` the cycle is the truncation, not the
floor, of `1e6/f`): the derived cycle is `floor(1e6/f)`;
`time_between_pulses_us` is cycle minus pulse rounded down to the nearest
multiple of 5, with the invalid-parameter error raised when it is negative;
`n_pulses = floor(T/cycle)`, with the invalid-parameter error raised when it
is ≤ 0; and the example encode (led 1 one-based, 10 Hz, 2 s, 50 ms pulse,
power 500) emits `0,50,50,20,500,0`. -/
theorem encode_frequency_branch (f : ℚ) (hf : 0 < f) (hfM : f ≤ 1000000)
    (led T p b : ℤ) :
    cycle_duration_us f = ⌊(1000000 : ℚ) / f⌋ ∧
    time_between_from_freq f p = 5 * Int.ediv (cycle_duration_us f - p) 5 ∧
    (time_between_from_freq f p < 0 →
      get_line led (some f) T p b = .error .invalidParameter) ∧
    n_pulses_from_freq f T = ⌊(T : ℚ) / ((cycle_duration_us f : ℤ) : ℚ)⌋ ∧
    (0 ≤ time_between_from_freq f p → n_pulses_from_freq f T ≤ 0 →
      get_line led (some f) T p b = .error .invalidParameter) ∧
    get_line 0 (some 10) 2000000 50000 500 = .ok ("0,50,50,20,500,0".data) := by
  have hcfloor : cycle_duration_us f = ⌊(1000000 : ℚ) / f⌋ := by
    unfold cycle_duration_us pytrunc
    rw [if_pos (by positivity)]
  have hcy : 1 ≤ cycle_duration_us f := by
    rw [hcfloor]
    exact Int.le_floor.mpr (by exact_mod_cast (one_le_div hf).mpr hfM)
  refine ⟨hcfloor, ?_, ?_, rfl, ?_, ?_⟩
  · show (cycle_duration_us f - p) - (cycle_duration_us f - p) % 5 =
      5 * ((cycle_duration_us f - p) / 5)
    omega
  · intro ht
    simp [get_line, hf.ne', ht]
  · intro ht hn
    have hc0 : ¬cycle_duration_us f = 0 := by omega
    simp [get_line, hf.ne', not_lt.mpr ht, hc0, hn]
  · have hc : cycle_duration_us 10 = 100000 := by
      unfold cycle_duration_us pytrunc
      rw [if_pos (by norm_num)]
      norm_num
    have ht : time_between_from_freq 10 50000 = 50000 := by
      unfold time_between_from_freq
      rw [hc]
      rfl
    have hn : n_pulses_from_freq 10 2000000 = 20 := by
      unfold n_pulses_from_freq
      rw [hc]
      norm_num
    have hf10 : ((10 : ℚ)) ≠ 0 := by norm_num
    simp only [get_line, if_neg hf10, ht, hn, hc]
    norm_num
    rfl

/-- Witness for `encode_frequency_branch`: the concrete example at 10 Hz. -/
theorem encode_frequency_branch_witness :
    get_line 0 (some 10) 2000000 50000 500 = .ok ("0,50,50,20,500,0".data) :=
  (encode_frequency_branch 10 (by norm_num) (by norm_num) 0 2000000 50000
    500).2.2.2.2.2
